import Mathlib

set_option maxRecDepth 8192

/-!
Verification of the safe-py-runner sandbox stack against its specification.

The development shallowly embeds the security-relevant parts of the code:

* `src/safe_py_runner/worker.py` — the in-isolation worker (`main` and its
  helpers `_safe_import_factory_mode`, `_inject_input_keys`,
  `_filter_extra_globals`, `_normalize_system_exit`);
* `src/safe_py_runner/execution/docker_pool.py` — the container pool
  (`should_rotate`, `DockerPool.acquire`, `DockerPool.release`);
* `src/safe_py_runner/execution/config.py` and `docker_engine.py` — the pool
  settings (`default_pool_settings`, `DockerEngine._pool_settings`).

Python values crossing the JSON boundary are modelled by `JVal`; text captured
in `io.StringIO` buffers is modelled as `List Char` because Python `str`
indexing and slicing operate on code points.  The execution of the submitted
code itself (Python `exec`) cannot be embedded, so its observable effect on the
worker is a parameter (`ExecEffect`): everything the worker does around that
step is translated from the source.
-/

/-- JSON-like Python values as they appear in the worker protocol.  The
`pyObj` constructor stands for a non-JSON Python object living in the
execution namespace (for example the safe-builtins dict bound to
`__builtins__`). -/
inductive JVal where
  | null
  | bool (b : Bool)
  | int (n : Int)
  | str (s : String)
  | arr (xs : List JVal)
  | obj (kvs : List (String × JVal))
  | pyObj (tag : String)

/-- A Python dict used as a namespace: insertion-ordered association list with
unique keys (uniqueness is maintained by the operations below). -/
abbrev Namespc : Type := List (String × JVal)

/-- Dict lookup, `d.get(k)` returning `None` as `Option.none`. -/
def nsGet (g : Namespc) (k : String) : Option JVal :=
  match g with
  | [] => none
  | (k2, v) :: rest => if k2 = k then some v else nsGet rest k

/-- Dict update `d[k] = v`: replace the binding if the key is present,
otherwise append it (Python dicts keep insertion order). -/
def nsSet (g : Namespc) (k : String) (v : JVal) : Namespc :=
  match g with
  | [] => [(k, v)]
  | (k2, v2) :: rest => if k2 = k then (k, v) :: rest else (k2, v2) :: nsSet rest k v

/-- `d.update(other)` for dicts modelled as ordered key/value lists. -/
def nsUpdate (g : Namespc) (kvs : List (String × JVal)) : Namespc :=
  kvs.foldl (fun acc kv => nsSet acc kv.1 kv.2) g

/-- `a.startswith(b)` on Python strings, computed structurally on the
underlying code points. -/
def pyStartsWith (s pre : String) : Bool :=
  pre.data.isPrefixOf s.data

/-- Root module name: `name.split(".")[0]` in
`worker._safe_import_factory_mode`, i.e. the code points before the first
dot (the whole name when it has no dot). -/
def pyRootModule (name : String) : String :=
  String.mk (name.data.takeWhile (fun c => c ≠ '.'))

/-- The restricted import hook built by
`worker._safe_import_factory_mode(mode, allowed_imports, blocked_imports)`.
`Except.error` is the `ImportError` raised by the hook; `Except.ok` means
the import is delegated to the underlying `__import__`. -/
def safeImport (mode : String) (allowed_imports blocked_imports : List String)
    (name : String) : Except String Unit :=
  if name = "importlib" ∨ pyStartsWith name "importlib." then
    .error "Import \x27importlib\x27 is blocked by policy"
  else
    let root := pyRootModule name
    if mode = "allow" then
      if ¬ allowed_imports.contains root then
        .error ("Import \x27" ++ name ++ "\x27 is not allowed by policy")
      else
        .ok ()
    else if blocked_imports.contains root then
      .error ("Import \x27" ++ name ++ "\x27 is blocked by policy")
    else
      .ok ()

example : safeImport "restrict" [] ["os"] "os.path" =
    .error "Import \x27os.path\x27 is blocked by policy" := rfl

example : safeImport "allow" ["importlib"] [] "importlib" =
    .error "Import \x27importlib\x27 is blocked by policy" := rfl

example : safeImport "allow" ["math"] [] "math" = .ok () := rfl

/-- `c` may start a Python identifier (ASCII fragment of `str.isidentifier`;
the worker only ever receives JSON object keys, and the claims under study use
ASCII keys). -/
def isIdentStart (c : Char) : Bool := c.isAlpha || c = '_'

/-- `c` may continue a Python identifier (ASCII fragment). -/
def isIdentCont (c : Char) : Bool := c.isAlphanum || c = '_'

/-- `key_str.isidentifier()` restricted to ASCII code points. -/
def pyIsIdentifier (s : String) : Bool :=
  match s.data with
  | [] => false
  | c :: cs => isIdentStart c && cs.all isIdentCont

/-- The `reserved` set of `worker._inject_input_keys`. -/
def reservedNames : List String :=
  ["__builtins__", "input_data", "result", "_print_", "_getattr_", "_write_",
   "_getiter_", "_getitem_", "_iter_unpack_sequence_", "_unpack_sequence_"]

/-- The body of the `for key, value in input_data.items()` loop of
`worker._inject_input_keys`: skip non-identifiers, reserved or
underscore-prefixed names, names excluded by the globals policy, and names
already bound; otherwise bind the key (a new dict key is appended). -/
def injectStep (mode : String) (allowed_globals blocked_globals : List String)
    (acc : Namespc) (kv : String × JVal) : Namespc :=
  if ¬ pyIsIdentifier kv.1 then acc
  else if reservedNames.contains kv.1 ∨ pyStartsWith kv.1 "_" then acc
  else if mode = "allow" ∧ ¬ allowed_globals.contains kv.1 then acc
  else if mode = "restrict" ∧ blocked_globals.contains kv.1 then acc
  else if (nsGet acc kv.1).isSome then acc
  else acc ++ [(kv.1, kv.2)]

/-- `worker._inject_input_keys(exec_globals, input_data, mode,
allowed_globals, blocked_globals)`: expose each top-level input key as a
variable when safe; a non-dict `input_data` injects nothing. -/
def injectInputKeys (exec_globals : Namespc) (input_data : JVal) (mode : String)
    (allowed_globals blocked_globals : List String) : Namespc :=
  match input_data with
  | .obj kvs => kvs.foldl (injectStep mode allowed_globals blocked_globals) exec_globals
  | _ => exec_globals

/-- `worker._filter_extra_globals(extra_globals, mode, allowed_globals,
blocked_globals)`. -/
def filterExtraGlobals (extra_globals : List (String × JVal)) (mode : String)
    (allowed_globals blocked_globals : List String) : List (String × JVal) :=
  extra_globals.filter (fun kv =>
    !(mode == "allow" && !(allowed_globals.contains kv.1)) &&
    !(mode == "restrict" && blocked_globals.contains kv.1))

/-- The payload carried by a `SystemExit` raised by the submitted code
(`exc.code`).  `other` stands for any object that is not `None`, an integer,
a float, or a string; its field is the `str()` rendering used in messages. -/
inductive ExitPayload where
  | none
  | int (n : Int)
  | float (q : ℚ)
  | str (s : String)
  | other (text : String)
deriving DecidableEq

/-- Python `exit_code in (None, 0)`: tuple membership is tested with `==`, so
`None` matches, integer `0` matches, and a float equal to zero matches; a
string never equals `0`, and a generic object compares by identity. -/
def pyEqNoneOrZero : ExitPayload → Bool
  | .none => true
  | .int n => n == 0
  | .float q => q == 0
  | .str _ => false
  | .other _ => false

/-- Python `str()` of a `SystemExit` payload, as interpolated into the
formatted `SystemExit:` message.  The float rendering is a display
choice of the model; no theorem depends on it. -/
def pyStrPayload : ExitPayload → String
  | .none => "None"
  | .int n => toString n
  | .float q => toString q
  | .str s => s
  | .other t => t

/-- `worker._normalize_system_exit(exit_code)`: returns
`(ok, worker_exit_code, error)`, the error being the formatted
`SystemExit:` message; `isinstance(exit_code, int)` is the integer test of
the second branch. -/
def normalizeSystemExit (exit_code : ExitPayload) : Bool × Int × Option String :=
  if pyEqNoneOrZero exit_code then (true, 0, Option.none)
  else
    match exit_code with
    | .int n => (false, n, some ("SystemExit: " ++ pyStrPayload (.int n)))
    | p => (false, 1, some ("SystemExit: " ++ pyStrPayload p))

/-- Captured buffer text: a Python `str` as its list of code points (Python
`len` and slicing operate on code points). -/
abbrev PyText := List Char

/-- Python slice `s[:n]` for an integer bound: a nonnegative bound keeps the
first `n` code points; a negative bound drops `-n` code points from the
end. -/
def pySlice (s : PyText) (n : Int) : PyText :=
  if 0 ≤ n then s.take n.toNat else s.take ((s.length : Int) + n).toNat

/-- UTF-8 byte length of captured text — the size the text occupies once the
JSON result is encoded to bytes. -/
def utf8Len (s : PyText) : Nat := s.foldl (fun a c => a + c.utf8Size) 0

/-- Observable effect of `exec(byte_code, exec_globals, exec_globals)` on the
worker (the submitted Python cannot itself be embedded, so the worker model is
parametric in it): the text the code appends to the redirected stdout/stderr
buffers, how it transforms the execution namespace, and how control leaves
the statement.  `raises` carries the class name of an exception in the
`Exception` hierarchy, its message, and the `traceback.format_exc()` text
the handler appends to stderr; per Python class hierarchy `MemoryError` is a
subclass of `Exception`, so a `MemoryError` raised by the executed code is
`raises "MemoryError" ...` and lands in `main`s `except Exception` handler,
not the outer `except MemoryError`.  `raisesBase` is a `BaseException` that
is neither `SystemExit` nor in the `Exception` hierarchy (for example
`KeyboardInterrupt`, reachable from submitted code under the default
policy): it matches none of `main`s handlers and escapes. -/
inductive ExecEffect where
  | completes (out err : PyText) (post : Namespc → Namespc)
  | sysExit (out err : PyText) (payload : ExitPayload) (post : Namespc → Namespc)
  | raises (excType excMsg : String) (out err : PyText) (tb : PyText)
  | raisesBase (excType excMsg : String) (out err : PyText)

/-- Outcome of `compile(code, "<user_code>", "exec")`: a `SyntaxError` whose
`str()` is `msg`, or bytecode whose execution has the given observable
effect. -/
inductive Compiled where
  | syntaxError (msg : String)
  | bytecode (effect : ExecEffect)

/-- The policy fields `worker.main` reads from the request, with the same
defaults as the corresponding `policy.get(...)` calls (worker.py 164-173). -/
structure WPolicy where
  memory_limit_mb : Int := 256
  max_output_kb : Int := 128
  mode : String := "restrict"
  allowed_imports : List String := []
  blocked_imports : List String := []
  allowed_builtins : List String := []
  blocked_builtins : List String := []
  allowed_globals : List String := []
  blocked_globals : List String := []
  extra_globals : List (String × JVal) := []

/-- A parsed worker request (`code`, `input_data`, `policy`). -/
structure WRequest where
  code : Compiled
  input_data : JVal := .null
  policy : WPolicy := {}

/-- What the pre-try region of `worker.main` (lines 159-173: the stdin read,
the `json.loads` call and the `int(...)`/`set(...)` policy-field coercions,
all before the try block) produces: the parsed request; the
`json.JSONDecodeError` that `json.loads` raises on malformed input; or —
`preTryRaise` — any other exception raised in that region, such as a
`MemoryError` while reading or coercing an oversized payload.  Exceptions of
this region are covered by no handler of `main`. -/
inductive WStdin where
  | invalidJson
  | preTryRaise (excType excMsg : String)
  | valid (req : WRequest)

/-- Milestones of `worker.main`, in program order: the `_set_limits` call
(line 179), the `compile` call (line 188), the `exec` call (line 225). -/
inductive WEvent where
  | limitsApplied
  | compiled
  | executed
deriving DecidableEq

/-- The JSON result object written to standard output (§6 worker protocol). -/
structure ResultObj where
  ok : Bool
  result : JVal
  stdout : PyText
  stderr : PyText
  timed_out : Bool
  resource_exceeded : Bool
  error : Option String

/-- One worker invocation: the JSON objects written to stdout in order, the
return value of `main` (`none` when an exception escaped `main` and nothing
more runs), and the milestones reached. -/
structure WorkerRun where
  writes : List ResultObj
  exit : Option Int
  trace : List WEvent

/-- Python `str()` of a protocol value, used for
`str(exec_globals.get("printed", ""))`.  Container renderings are
abbreviated; no theorem depends on them. -/
def pyStrJ : JVal → String
  | .null => "None"
  | .bool b => if b then "True" else "False"
  | .int n => toString n
  | .str s => s
  | .arr _ => "[...]"
  | .obj _ => "\x7b...\x7d"
  | .pyObj tag => tag

/-- The namespace of `worker.main` lines 206-213 before input-key injection:
the literal seeding `__builtins__`/`input_data`/`result` followed by
`exec_globals.update(_filter_extra_globals(...))`. -/
def seededGlobals (p : WPolicy) (input_data : JVal) : Namespc :=
  nsUpdate [("__builtins__", .pyObj "safe_builtins"),
            ("input_data", input_data),
            ("result", .null)]
    (filterExtraGlobals p.extra_globals p.mode p.allowed_globals p.blocked_globals)

/-- The execution namespace as built by `worker.main` lines 206-214: the
seeded namespace, then `_inject_input_keys`. -/
def buildExecGlobals (p : WPolicy) (input_data : JVal) : Namespc :=
  injectInputKeys (seededGlobals p input_data) input_data p.mode
    p.allowed_globals p.blocked_globals

/-- Shallow embedding of `worker.main()` (worker.py lines 158-309).
Exceptions raised in the pre-try region (`invalidJson`, `preTryRaise`)
escape `main` with nothing written.  `memFaultInSetup` injects a
`MemoryError` striking inside the try block during setup, between the mode
check and the `_set_limits` call — an allocation failure outside the
executed code, caught by the outermost `except MemoryError` handler
(lines 279-293).  The mode check failing raises `ValueError`, caught by the
outer `except Exception` handler (lines 294-309).  An `ExecEffect.raisesBase`
outcome of `exec` matches no handler (`except SystemExit` line 226,
`except Exception` line 229, `except MemoryError` line 279, `except
Exception` line 294) and escapes `main` with nothing written. -/
def workerMain (stdin : WStdin) (memFaultInSetup : Bool) : WorkerRun :=
  match stdin with
  | .invalidJson => { writes := [], exit := Option.none, trace := [] }
  | .preTryRaise _ _ => { writes := [], exit := Option.none, trace := [] }
  | .valid req =>
    let p := req.policy
    let budget : Int := p.max_output_kb * 1024
    if ¬ (p.mode = "allow" ∨ p.mode = "restrict") then
      { writes := [{ ok := false, result := .null, stdout := [], stderr := [],
                     timed_out := false, resource_exceeded := false,
                     error := some "mode must be \x27allow\x27 or \x27restrict\x27" }],
        exit := some 1, trace := [] }
    else if memFaultInSetup then
      { writes := [{ ok := false, result := .null, stdout := [], stderr := [],
                     timed_out := false, resource_exceeded := true,
                     error := some "Memory limit exceeded" }],
        exit := some 2, trace := [] }
    else
      match req.code with
      | .syntaxError msg =>
        { writes := [{ ok := false, result := .null, stdout := [], stderr := [],
                       timed_out := false, resource_exceeded := false,
                       error := some ("SyntaxError: " ++ msg) }],
          exit := some 1, trace := [.limitsApplied, .compiled] }
      | .bytecode eff =>
        let g := buildExecGlobals p req.input_data
        match eff with
        | .raises ty msg out err tb =>
          { writes := [{ ok := false, result := .null,
                         stdout := pySlice out budget,
                         stderr := pySlice (err ++ tb) budget,
                         timed_out := false, resource_exceeded := false,
                         error := some (ty ++ ": " ++ msg) }],
            exit := some 1, trace := [.limitsApplied, .compiled, .executed] }
        | .raisesBase _ _ _ _ =>
          { writes := [], exit := Option.none,
            trace := [.limitsApplied, .compiled, .executed] }
        | .completes out err post =>
          let gf := post g
          let printed := (pyStrJ ((nsGet gf "printed").getD (.str ""))).data
          { writes := [{ ok := true, result := (nsGet gf "result").getD .null,
                         stdout := pySlice (out ++ printed) budget,
                         stderr := pySlice err budget,
                         timed_out := false, resource_exceeded := false,
                         error := Option.none }],
            exit := some 0, trace := [.limitsApplied, .compiled, .executed] }
        | .sysExit out err payload post =>
          let gf := post g
          let printed := (pyStrJ ((nsGet gf "printed").getD (.str ""))).data
          let norm := normalizeSystemExit payload
          let err2 := match payload with
            | .str s => err ++ (s ++ "\n").data
            | _ => err
          { writes := [{ ok := norm.1, result := (nsGet gf "result").getD .null,
                         stdout := pySlice (out ++ printed) budget,
                         stderr := pySlice err2 budget,
                         timed_out := false, resource_exceeded := false,
                         error := norm.2.2 }],
            exit := some norm.2.1, trace := [.limitsApplied, .compiled, .executed] }

/-- `config.DockerPoolSettings`: a frozen dataclass with no validation of its
own. -/
structure DockerPoolSettings where
  pool_size : Int
  max_runs : Int
  ttl_seconds : Int
  acquire_timeout : Int
deriving DecidableEq

/-- `docker_pool.ContainerLease`: pooled container metadata.  The
`time.time()` clock is modelled by integer ticks. -/
structure ContainerLease where
  container_name : String
  created_at : Int
  last_used_at : Int
  run_count : Int
deriving DecidableEq

/-- `docker_pool._ContainerEntry`: a lease plus its `in_use` flag. -/
structure ContainerEntry where
  lease : ContainerLease
  in_use : Bool
deriving DecidableEq

/-- `docker_pool.should_rotate(lease, settings, now)`. -/
def should_rotate (lease : ContainerLease) (settings : DockerPoolSettings)
    (now : Int) : Bool :=
  if lease.run_count ≥ settings.max_runs then true
  else (now - lease.created_at) ≥ settings.ttl_seconds

/-- `DockerPool._rotate_locked(entries, settings, ...)`: iterate over a copy
of `entries` and remove (by value) every idle entry that `should_rotate`; the
net effect on the list is this filter. -/
def rotateLocked (entries : List ContainerEntry) (settings : DockerPoolSettings)
    (now : Int) : List ContainerEntry :=
  entries.filter (fun e => e.in_use || !(should_rotate e.lease settings now))

/-- The idle-scan loop of `DockerPool.acquire` (docker_pool.py 104-120).
Python iterates `for entry in entries` by index over the live list while
`_remove_entry_locked` calls `entries.remove(entry)`, so after a removal at
position `i` the loop continues with the element at position `i+1` of the
shrunk list — the element that slid into position `i` is not examined in this
pass.  (`list.remove` deletes the first element equal to `entry`; entry names
are unique `uuid4`-derived strings, so that is the element at position `i`.)
Returns the updated list, the names that failed the liveness probe
(`_is_running`) and were removed, and the lease handed out, if any. -/
def scanIdle (probe : String → Bool) (entries : List ContainerEntry) (i : Nat) :
    List ContainerEntry × List String × Option ContainerLease :=
  if h : i < entries.length then
    if (entries.get ⟨i, h⟩).in_use then scanIdle probe entries (i + 1)
    else if probe (entries.get ⟨i, h⟩).lease.container_name then
      (entries.set i { entries.get ⟨i, h⟩ with in_use := true }, [],
       some (entries.get ⟨i, h⟩).lease)
    else
      ((scanIdle probe (entries.eraseIdx i) (i + 1)).1,
       (entries.get ⟨i, h⟩).lease.container_name ::
         (scanIdle probe (entries.eraseIdx i) (i + 1)).2.1,
       (scanIdle probe (entries.eraseIdx i) (i + 1)).2.2)
  else (entries, [], Option.none)
termination_by entries.length - i
decreasing_by
  all_goals
    first
      | omega
      | (have hlen : (entries.eraseIdx i).length = entries.length - 1 :=
           List.length_eraseIdx_of_lt h
         omega)

/-- Result of one acquire pass: a recycled idle lease, a freshly created
lease, or nothing free with the pool at capacity (the caller sleeps and
retries until the deadline). -/
inductive AcquireResult where
  | leased (lease : ContainerLease)
  | created (lease : ContainerLease)
  | exhausted
deriving DecidableEq

/-- One pass of the `while True` body of `DockerPool.acquire` under the lock
(docker_pool.py 95-131): rotate stale idle entries, scan for a live idle
entry, otherwise create a new container when below `pool_size`.  `newName`
stands for the fresh `safe-py-runner-` + `uuid4().hex[:12]` name
`_create_container` would pick. -/
def acquireAttempt (probe : String → Bool) (entries : List ContainerEntry)
    (settings : DockerPoolSettings) (now : Int) (newName : String) :
    List ContainerEntry × List String × AcquireResult :=
  match scanIdle probe (rotateLocked entries settings now) 0 with
  | (entries2, removed, some lease) => (entries2, removed, .leased lease)
  | (entries2, removed, Option.none) =>
    if (entries2.length : Int) < settings.pool_size then
      (entries2 ++
        [{ lease := { container_name := newName, created_at := now,
                      last_used_at := now, run_count := 0 },
           in_use := true }], removed,
       .created { container_name := newName, created_at := now,
                  last_used_at := now, run_count := 0 })
    else (entries2, removed, .exhausted)

/-- `DockerPool.release` (docker_pool.py 139-171): find the first entry for
`container_name`, clear `in_use`, refresh `last_used_at`, increment
`run_count`, and force-remove the entry when `mark_bad`. -/
def releaseEntry (entries : List ContainerEntry) (container_name : String)
    (mark_bad : Bool) (now : Int) : List ContainerEntry :=
  match entries with
  | [] => []
  | e :: rest =>
    if e.lease.container_name = container_name then
      let lease2 := { e.lease with last_used_at := now, run_count := e.lease.run_count + 1 }
      let e2 : ContainerEntry := { lease := lease2, in_use := false }
      if mark_bad then rest else e2 :: rest
    else e :: releaseEntry rest container_name mark_bad now

/-- A step against one image bucket of the pool (`DockerPool._by_image` keys
buckets by image; acquire and release for a fixed image only ever touch that
image's list). -/
inductive PoolEvent where
  | acquire (probe : String → Bool) (settings : DockerPoolSettings)
      (now : Int) (newName : String)
  | release (container_name : String) (mark_bad : Bool) (now : Int)

/-- Apply one pool event to a bucket. -/
def poolStep (entries : List ContainerEntry) :
    PoolEvent → List ContainerEntry × Option AcquireResult
  | .acquire probe settings now newName =>
    let r := acquireAttempt probe entries settings now newName
    (r.1, some r.2.2)
  | .release name mark_bad now =>
    (releaseEntry entries name mark_bad now, Option.none)

/-- Run a sequence of pool events, collecting the acquire results. -/
def poolRun (entries : List ContainerEntry) :
    List PoolEvent → List ContainerEntry × List AcquireResult
  | [] => (entries, [])
  | ev :: evs =>
    let s := poolStep entries ev
    let rest := poolRun s.1 evs
    (rest.1, s.2.toList ++ rest.2)

/-- Container names present in a bucket. -/
abbrev entryNames (entries : List ContainerEntry) : List String :=
  entries.map (fun e => e.lease.container_name)

/-- The name a `PoolEvent.acquire` would give a newly created container
(releases create nothing). -/
def eventNewName : PoolEvent → Option String
  | .acquire _ _ _ newName => some newName
  | .release _ _ _ => Option.none

/-- The container name carried by an acquire result, when one was leased. -/
def resultName : AcquireResult → Option String
  | .leased lease => some lease.container_name
  | .created lease => some lease.container_name
  | .exhausted => Option.none

/-- Python `x or d` for an optional natural (`os.cpu_count() or 1`): `None`
and `0` are falsy. -/
def pyOrNat : Option Nat → Nat → Nat
  | Option.none, d => d
  | some n, d => if n = 0 then d else n

/-- Python `x or d` for the optional integer overrides stored on
`DockerEngine`: `None` and `0` fall back, every other value passes through
unvalidated. -/
def pyOrInt : Option Int → Int → Int
  | Option.none, d => d
  | some n, d => if n = 0 then d else n

/-- `config.default_pool_settings(timeout_seconds)`; `cpuCount` models
`os.cpu_count()` (`none` when undetermined). -/
def default_pool_settings (cpuCount : Option Nat) (timeout_seconds : Int) :
    DockerPoolSettings :=
  let size : Int := min (pyOrNat cpuCount 1 : Int) 4
  { pool_size := size, max_runs := 25, ttl_seconds := 600,
    acquire_timeout := max 1 timeout_seconds + 2 }

/-- `DockerEngine._pool_settings(timeout_seconds)` (docker_engine.py
345-359): each constructor override (`pool_size=`, `max_runs=`,
`ttl_seconds=`, `acquire_timeout_seconds=`, stored on the engine without
validation) replaces the default unless it is falsy. -/
def enginePoolSettings
    (pool_size max_runs ttl_seconds acquire_timeout_seconds : Option Int)
    (cpuCount : Option Nat) (timeout_seconds : Int) : DockerPoolSettings :=
  let defaults := default_pool_settings cpuCount timeout_seconds
  { pool_size := pyOrInt pool_size defaults.pool_size,
    max_runs := pyOrInt max_runs defaults.max_runs,
    ttl_seconds := pyOrInt ttl_seconds defaults.ttl_seconds,
    acquire_timeout := pyOrInt acquire_timeout_seconds defaults.acquire_timeout }

/-! ### Concrete scenarios

Requests and pool states used to evaluate the model at specific inputs. -/

/-- Request: code `pass` (no output, namespace untouched) with
`input_data={"result": "x"}` under the default policy. -/
def reqPassResult : WRequest :=
  { code := .bytecode (.completes [] [] id), input_data := .obj [("result", .str "x")] }

/-- Request: code that completes without output under the default policy. -/
def reqSimple : WRequest := { code := .bytecode (.completes [] [] id) }

/-- Request: code that raises `MemoryError` while executing (e.g. a huge
allocation in the user code under `RLIMIT_AS`). -/
def reqMemExec : WRequest := { code := .bytecode (.raises "MemoryError" "" [] [] []) }

/-- Request: code `raise KeyboardInterrupt` — a `BaseException` outside the
`Exception` hierarchy, constructible under the default policy. -/
def reqKbdInt : WRequest :=
  { code := .bytecode (.raisesBase "KeyboardInterrupt" "" [] []) }

/-- Request: code text that fails to compile. -/
def reqSynCex : WRequest := { code := .syntaxError "invalid syntax (<user_code>, line 1)" }

/-- Request: code `sys.exit([1, 2])` — a payload that is neither an integer
nor a string (its `str()` rendering is `[1, 2]`). -/
def reqExitOther : WRequest :=
  { code := .bytecode (.sysExit [] [] (.other "[1, 2]") id) }

/-- Request: code `sys.exit(0.0)` — a non-integer payload equal to `0`. -/
def reqExitFloatZero : WRequest := { code := .bytecode (.sysExit [] [] (.float 0) id) }

/-- Request: code `sys.exit("stop now")`. -/
def reqExitStr : WRequest := { code := .bytecode (.sysExit [] [] (.str "stop now") id) }

/-- A policy with one pre-seeded extra global `a = 1`. -/
def polExtraA : WPolicy := { extra_globals := [("a", .int 1)] }

/-- 1025 copies of a two-byte (non-ASCII) code point: 2050 bytes of stdout. -/
def outC8 : PyText := List.replicate 1025 'é'

/-- A policy with a 1 KB output cap. -/
def polK1 : WPolicy := { max_output_kb := 1 }

/-- Request: code printing `outC8` under the 1 KB output cap. -/
def reqC8cex : WRequest := { code := .bytecode (.completes outC8 [] id), policy := polK1 }

/-- An idle pool entry named `c0`, freshly created. -/
def entryIdle : ContainerEntry :=
  { lease := { container_name := "c0", created_at := 0, last_used_at := 0, run_count := 0 },
    in_use := false }

/-- Pool settings matching the defaults for a 5s run. -/
def settingsEx : DockerPoolSettings :=
  { pool_size := 1, max_runs := 25, ttl_seconds := 600, acquire_timeout := 7 }

/-- The fresh lease an acquire pass creates under the name `c1` at time 1. -/
def leaseC1 : ContainerLease :=
  { container_name := "c1", created_at := 1, last_used_at := 1, run_count := 0 }

/-- `leaseC1` marked in use, as appended by the create branch of acquire. -/
def entryC1 : ContainerEntry := { lease := leaseC1, in_use := true }

/-! ## Lemmas about the execution namespace -/

theorem nsGet_append_single (g : Namespc) (key k : String) (v : JVal)
    (hne : key ≠ k) : nsGet (g ++ [(key, v)]) k = nsGet g k := by
  induction g with
  | nil => simp [nsGet, hne]
  | cons hd tl ih =>
    obtain ⟨a, b⟩ := hd
    by_cases h : a = k <;> simp [nsGet, h, ih]

theorem injectStep_cases (mode : String) (ag bg : List String) (acc : Namespc)
    (kv : String × JVal) :
    injectStep mode ag bg acc kv = acc ∨
      (injectStep mode ag bg acc kv = acc ++ [(kv.1, kv.2)] ∧
       reservedNames.contains kv.1 = false ∧ pyStartsWith kv.1 "_" = false ∧
       (nsGet acc kv.1).isSome = false) := by
  unfold injectStep
  split
  · exact Or.inl rfl
  · split
    · exact Or.inl rfl
    · split
      · exact Or.inl rfl
      · split
        · exact Or.inl rfl
        · split
          · exact Or.inl rfl
          · rename_i h1 h2 h3 h4 h5
            refine Or.inr ⟨rfl, ?_, ?_, ?_⟩
            · simpa using fun hh => h2 (Or.inl hh)
            · simpa using fun hh => h2 (Or.inr hh)
            · simpa using h5

theorem injectStep_preserves (mode : String) (ag bg : List String)
    (acc : Namespc) (kv : String × JVal) (k : String) (v : JVal)
    (h : nsGet acc k = some v) :
    nsGet (injectStep mode ag bg acc kv) k = some v := by
  rcases injectStep_cases mode ag bg acc kv with h1 | ⟨h1, _, _, h4⟩
  · rw [h1]; exact h
  · rw [h1]
    by_cases hk : kv.1 = k
    · rw [hk] at h4; rw [h] at h4; simp at h4
    · rw [nsGet_append_single acc kv.1 k kv.2 hk]; exact h

theorem injectStep_skips (mode : String) (ag bg : List String)
    (acc : Namespc) (kv : String × JVal) (k : String)
    (hres : reservedNames.contains k = true ∨ pyStartsWith k "_" = true) :
    nsGet (injectStep mode ag bg acc kv) k = nsGet acc k := by
  rcases injectStep_cases mode ag bg acc kv with h1 | ⟨h1, h2, h3, _⟩
  · rw [h1]
  · rw [h1]
    by_cases hk : kv.1 = k
    · rw [hk] at h2 h3
      rcases hres with hr | hr
      · rw [hr] at h2; cases h2
      · rw [hr] at h3; cases h3
    · exact nsGet_append_single acc kv.1 k kv.2 hk

theorem foldl_injectStep_preserves (mode : String) (ag bg : List String)
    (kvs : List (String × JVal)) :
    ∀ (acc : Namespc) (k : String) (v : JVal), nsGet acc k = some v →
      nsGet (kvs.foldl (injectStep mode ag bg) acc) k = some v := by
  induction kvs with
  | nil => intro acc k v h; simpa using h
  | cons kv rest ih =>
    intro acc k v h
    rw [List.foldl_cons]
    exact ih _ k v (injectStep_preserves mode ag bg acc kv k v h)

theorem foldl_injectStep_skips (mode : String) (ag bg : List String)
    (kvs : List (String × JVal)) :
    ∀ (acc : Namespc) (k : String),
      (reservedNames.contains k = true ∨ pyStartsWith k "_" = true) →
      nsGet (kvs.foldl (injectStep mode ag bg) acc) k = nsGet acc k := by
  induction kvs with
  | nil => intro acc k _; rfl
  | cons kv rest ih =>
    intro acc k hres
    rw [List.foldl_cons, ih _ k hres, injectStep_skips mode ag bg acc kv k hres]

theorem injectInputKeys_preserves (g : Namespc) (input : JVal) (mode : String)
    (ag bg : List String) (k : String) (v : JVal) (h : nsGet g k = some v) :
    nsGet (injectInputKeys g input mode ag bg) k = some v := by
  cases input with
  | obj kvs => exact foldl_injectStep_preserves mode ag bg kvs g k v h
  | null => exact h
  | bool b => exact h
  | int n => exact h
  | str s => exact h
  | arr xs => exact h
  | pyObj t => exact h

theorem injectInputKeys_skips (g : Namespc) (input : JVal) (mode : String)
    (ag bg : List String) (k : String)
    (hres : reservedNames.contains k = true ∨ pyStartsWith k "_" = true) :
    nsGet (injectInputKeys g input mode ag bg) k = nsGet g k := by
  cases input with
  | obj kvs => exact foldl_injectStep_skips mode ag bg kvs g k hres
  | null => rfl
  | bool b => rfl
  | int n => rfl
  | str s => rfl
  | arr xs => rfl
  | pyObj t => rfl

/-! ## Claim C1 -/

/-- C1: the restricted import hook built by the worker denies `importlib` and
every `importlib.`-prefixed name in both modes regardless of the allow/deny
lists; in allow mode it raises `ImportError` for every import whose root
module name is not in `allowed_imports`; in restrict mode it raises
`ImportError` for every import whose root module name is in
`blocked_imports`; every other import is delegated to the underlying import
mechanism. -/
theorem c1_restricted_import_hook (mode : String) (allowed blocked : List String)
    (name : String) :
    ((name = "importlib" ∨ pyStartsWith name "importlib." = true) →
       safeImport mode allowed blocked name =
         .error "Import \x27importlib\x27 is blocked by policy") ∧
    (¬ (name = "importlib" ∨ pyStartsWith name "importlib." = true) →
       (mode = "allow" → allowed.contains (pyRootModule name) = false →
          safeImport mode allowed blocked name =
            .error ("Import \x27" ++ name ++ "\x27 is not allowed by policy")) ∧
       (mode = "restrict" → blocked.contains (pyRootModule name) = true →
          safeImport mode allowed blocked name =
            .error ("Import \x27" ++ name ++ "\x27 is blocked by policy")) ∧
       (mode = "allow" → allowed.contains (pyRootModule name) = true →
          safeImport mode allowed blocked name = .ok ()) ∧
       (mode = "restrict" → blocked.contains (pyRootModule name) = false →
          safeImport mode allowed blocked name = .ok ())) := by
  constructor
  · intro h
    simp only [safeImport, if_pos h]
  · intro h
    refine ⟨fun hm hc => ?_, fun hm hc => ?_, fun hm hc => ?_, fun hm hc => ?_⟩ <;>
      subst hm <;> simp [safeImport, if_neg h, hc] <;> simpa using hc

/-- Witness for C1 at concrete inputs: `importlib` denied even when
allow-listed; allow mode denies unlisted roots and admits listed ones;
restrict mode denies listed roots and admits others. -/
theorem c1_restricted_import_hook_witness :
    safeImport "allow" ["importlib"] [] "importlib.util" =
      .error "Import \x27importlib\x27 is blocked by policy" ∧
    safeImport "allow" ["os"] [] "sys" =
      .error "Import \x27sys\x27 is not allowed by policy" ∧
    safeImport "restrict" [] ["os"] "os.path" =
      .error "Import \x27os.path\x27 is blocked by policy" ∧
    safeImport "allow" ["os"] [] "os.path" = .ok () ∧
    safeImport "restrict" [] ["sys"] "os" = .ok () := by
  refine ⟨?_, ?_, ?_, ?_, ?_⟩
  · exact (c1_restricted_import_hook "allow" ["importlib"] [] "importlib.util").1
      (Or.inr (by decide))
  · exact ((c1_restricted_import_hook "allow" ["os"] [] "sys").2 (by decide)).1
      rfl (by decide)
  · exact ((c1_restricted_import_hook "restrict" [] ["os"] "os.path").2 (by decide)).2.1
      rfl (by decide)
  · exact ((c1_restricted_import_hook "allow" ["os"] [] "os.path").2 (by decide)).2.2.1
      rfl (by decide)
  · exact ((c1_restricted_import_hook "restrict" [] ["sys"] "os").2 (by decide)).2.2.2
      rfl (by decide)

/-! ## Claim C5 -/

/-- C5: an input-data key equal to a reserved internal name (such as `result`
or `input_data`) is never injected into the execution namespace — injection
leaves the binding of every reserved name unchanged — and concretely, running
`pass` with `input_data={"result": "x"}` yields `result = None`, not `"x"`. -/
theorem c5_reserved_names_not_injected (g : Namespc) (input : JVal)
    (mode : String) (ag bg : List String) (k : String)
    (hres : reservedNames.contains k = true) :
    nsGet (injectInputKeys g input mode ag bg) k = nsGet g k ∧
    (workerMain (.valid reqPassResult) false).writes.map (fun r => r.result) =
      [JVal.null] ∧
    (workerMain (.valid reqPassResult) false).exit = some 0 :=
  ⟨injectInputKeys_skips g input mode ag bg k (Or.inl hres), rfl, rfl⟩

/-- Witness for C5 at `k = "result"` with the seeded binding `result = None`. -/
theorem c5_reserved_names_not_injected_witness :
    nsGet (injectInputKeys [("result", JVal.null)] (.obj [("result", .str "x")])
      "restrict" [] []) "result" = nsGet [("result", JVal.null)] "result" ∧
    (workerMain (.valid reqPassResult) false).writes.map (fun r => r.result) =
      [JVal.null] ∧
    (workerMain (.valid reqPassResult) false).exit = some 0 :=
  c5_reserved_names_not_injected [("result", JVal.null)]
    (.obj [("result", .str "x")]) "restrict" [] [] "result" rfl

/-! ## Claim C10 -/

/-- C10: when the worker builds the execution namespace, input-key injection
never overwrites an already-bound name: any binding present after seeding the
internals (`__builtins__`, `input_data`, `result`) and the filtered
`extra_globals` survives injection unchanged (so `extra_globals` take
precedence over same-named input keys), and an underscore-prefixed input key
is never bound by injection. -/
theorem c10_injection_never_overwrites (p : WPolicy) (input : JVal)
    (k : String) (v : JVal) :
    (nsGet (seededGlobals p input) k = some v →
       nsGet (buildExecGlobals p input) k = some v) ∧
    (pyStartsWith k "_" = true →
       nsGet (buildExecGlobals p input) k = nsGet (seededGlobals p input) k) := by
  constructor
  · intro h
    exact injectInputKeys_preserves _ input p.mode _ _ k v h
  · intro h
    exact injectInputKeys_skips _ input p.mode _ _ k (Or.inr h)

/-- Witness for C10: the extra global `a = 1` beats the input key
`a = "z"`, and the underscore key `_secret` is not injected. -/
theorem c10_injection_never_overwrites_witness :
    nsGet (buildExecGlobals polExtraA (.obj [("a", .str "z")])) "a" =
      some (JVal.int 1) ∧
    nsGet (buildExecGlobals polExtraA (.obj [("_secret", .str "z")])) "_secret" =
      nsGet (seededGlobals polExtraA (.obj [("_secret", .str "z")])) "_secret" :=
  ⟨(c10_injection_never_overwrites polExtraA (.obj [("a", .str "z")]) "a"
      (JVal.int 1)).1 rfl,
   (c10_injection_never_overwrites polExtraA (.obj [("_secret", .str "z")])
      "_secret" JVal.null).2 rfl⟩

/-! ## Claim C4 -/

/-- Counterexample for C4 as stated: on standard input that is not valid
JSON, the `json.loads` call on worker.py line 159 raises before `main`s try
block is entered, so the worker terminates having written zero JSON result
objects, not one. -/
theorem c4_cex_invalid_json_writes_nothing :
    (workerMain .invalidJson false).writes = [] ∧
    (workerMain .invalidJson false).writes.length ≠ 1 ∧
    (workerMain .invalidJson false).exit = Option.none :=
  ⟨rfl, by decide, rfl⟩

/-- C4 amended: the worker never writes more than one JSON result object;
it writes exactly one for every parsed request whose execution does not end
in a `BaseException` outside the `Exception` hierarchy (other than
`SystemExit`); it writes zero when the pre-try region raises — malformed
JSON, or any other exception (such as a `MemoryError`) during the stdin
read, the JSON parse, or the policy-field coercions of worker.py lines
159-173 — and zero when the executed code raises such a `BaseException`
(e.g. `KeyboardInterrupt`), which escapes every handler of `main`. -/
theorem c4_exactly_one_write :
    (∀ (stdin : WStdin) (mf : Bool), (workerMain stdin mf).writes.length ≤ 1) ∧
    (∀ mf : Bool, (workerMain .invalidJson mf).writes.length = 0) ∧
    (∀ (ty msg : String) (mf : Bool),
       (workerMain (.preTryRaise ty msg) mf).writes.length = 0) ∧
    (∀ (req : WRequest) (ty msg : String) (out err : PyText),
       (req.policy.mode = "allow" ∨ req.policy.mode = "restrict") →
       req.code = .bytecode (.raisesBase ty msg out err) →
       (workerMain (.valid req) false).writes = [] ∧
       (workerMain (.valid req) false).exit = Option.none) ∧
    (∀ (req : WRequest) (mf : Bool),
       (∀ (ty msg : String) (out err : PyText),
         req.code ≠ .bytecode (.raisesBase ty msg out err)) →
       (workerMain (.valid req) mf).writes.length = 1) := by
  refine ⟨?_, fun _ => rfl, fun _ _ _ => rfl, ?_, ?_⟩
  · intro stdin mf
    cases stdin with
    | invalidJson => exact Nat.zero_le 1
    | preTryRaise ty msg => exact Nat.zero_le 1
    | valid req =>
      rcases req with ⟨code, input, policy⟩
      simp only [workerMain]
      split
      · exact Nat.le_refl 1
      · split
        · exact Nat.le_refl 1
        · cases code with
          | syntaxError msg => exact Nat.le_refl 1
          | bytecode eff =>
            cases eff with
            | completes out err post => exact Nat.le_refl 1
            | sysExit out err payload post => exact Nat.le_refl 1
            | raises ty msg out err tb => exact Nat.le_refl 1
            | raisesBase ty msg out err => exact Nat.zero_le 1
  · intro req ty msg out err hmode hcode
    rcases req with ⟨code, input, policy⟩
    simp only at hcode hmode
    subst hcode
    constructor <;> rcases hmode with h | h <;> simp [workerMain, h]
  · intro req mf hne
    rcases req with ⟨code, input, policy⟩
    simp only at hne
    simp only [workerMain]
    split
    · rfl
    · split
      · rfl
      · cases code with
        | syntaxError msg => rfl
        | bytecode eff =>
          cases eff with
          | completes out err post => rfl
          | sysExit out err payload post => rfl
          | raises ty msg out err tb => rfl
          | raisesBase ty msg out err => exact absurd rfl (hne ty msg out err)

/-- Witness for C4 at concrete inputs: `raise KeyboardInterrupt` writes
nothing and escapes; a normally completing request writes exactly once;
malformed JSON writes nothing. -/
theorem c4_exactly_one_write_witness :
    (workerMain (.valid reqKbdInt) false).writes = [] ∧
    (workerMain (.valid reqKbdInt) false).exit = Option.none ∧
    (workerMain (.valid reqSimple) false).writes.length = 1 ∧
    (workerMain .invalidJson false).writes.length = 0 :=
  ⟨(c4_exactly_one_write.2.2.2.1 reqKbdInt "KeyboardInterrupt" "" [] []
      (Or.inr rfl) rfl).1,
   (c4_exactly_one_write.2.2.2.1 reqKbdInt "KeyboardInterrupt" "" [] []
      (Or.inr rfl) rfl).2,
   c4_exactly_one_write.2.2.2.2 reqSimple false
     (fun ty msg out err h => by simp [reqSimple] at h),
   c4_exactly_one_write.2.1 false⟩

/-! ## Claim C7 -/

/-- Counterexample for C7 as stated: on a syntax-error request the worker has
already applied the resource ceiling — `_set_limits` (worker.py line 179)
runs before `compile` (line 188) — so the syntax-error report is emitted
after, not before, the resource limit is applied. -/
theorem c7_cex_limits_precede_compile :
    (workerMain (.valid reqSynCex) false).trace =
      [WEvent.limitsApplied, WEvent.compiled] ∧
    WEvent.limitsApplied ∈ (workerMain (.valid reqSynCex) false).trace ∧
    (workerMain (.valid reqSynCex) false).writes.map (fun r => r.error) =
      [some "SyntaxError: invalid syntax (<user_code>, line 1)"] :=
  ⟨rfl, by decide, rfl⟩

/-- C7 amended: code that fails to compile is reported as a distinct
syntax-error category with exit code 1 and no statement of the code is ever
executed (no `executed` event); however the report comes after the resource
ceiling has been applied, since `_set_limits` runs before `compile`. -/
theorem c7_syntax_error_never_executes (req : WRequest) (msg : String)
    (hcode : req.code = .syntaxError msg)
    (hmode : req.policy.mode = "allow" ∨ req.policy.mode = "restrict") :
    (workerMain (.valid req) false).writes.map (fun r => r.error) =
      [some ("SyntaxError: " ++ msg)] ∧
    (workerMain (.valid req) false).exit = some 1 ∧
    (workerMain (.valid req) false).trace = [.limitsApplied, .compiled] ∧
    WEvent.executed ∉ (workerMain (.valid req) false).trace := by
  rcases req with ⟨code, input, policy⟩
  simp only at hcode hmode
  subst hcode
  refine ⟨?_, ?_, ?_, ?_⟩ <;> rcases hmode with h | h <;> simp [workerMain, h]

/-- Witness for C7 at the concrete syntax-error request. -/
theorem c7_syntax_error_never_executes_witness :
    (workerMain (.valid reqSynCex) false).writes.map (fun r => r.error) =
      [some ("SyntaxError: " ++ "invalid syntax (<user_code>, line 1)")] ∧
    (workerMain (.valid reqSynCex) false).exit = some 1 ∧
    (workerMain (.valid reqSynCex) false).trace = [.limitsApplied, .compiled] ∧
    WEvent.executed ∉ (workerMain (.valid reqSynCex) false).trace :=
  c7_syntax_error_never_executes reqSynCex "invalid syntax (<user_code>, line 1)"
    rfl (Or.inr rfl)

/-! ## Claim C3 -/

/-- Counterexample for C3 as stated: a `MemoryError` raised while executing
the submitted code is caught by the generic `except Exception` handler
(worker.py line 229; `MemoryError` is a subclass of `Exception`), so the
worker reports `resource_exceeded = false` with exit code 1 — not the
resource-exceeded category with exit code 2 the claim requires for faults
occurring "during execution of the submitted code". -/
theorem c3_cex_memory_error_during_exec :
    (workerMain (.valid reqMemExec) false).exit = some 1 ∧
    (workerMain (.valid reqMemExec) false).exit ≠ some 2 ∧
    (workerMain (.valid reqMemExec) false).writes.map
      (fun r => r.resource_exceeded) = [false] ∧
    (workerMain (.valid reqMemExec) false).writes.map (fun r => r.error) =
      [some "MemoryError: "] :=
  ⟨rfl, by decide, rfl, rfl⟩

/-- C3 amended: a `MemoryError` striking in the pre-try region of the worker
(the stdin read, the JSON parse, or the policy-field coercions, worker.py
lines 159-173) escapes uncaught and the worker terminates writing nothing —
no exit code 2, no envelope; a `MemoryError` striking inside the try block
but outside the execution of the submitted code (the setup between the mode
check and `exec`) is caught at the outermost level and reported with
`resource_exceeded = true`, exit code 2, and empty captured stdout and
stderr; and a `MemoryError` raised during the execution of the submitted
code is caught by the generic runtime-fault handler and reported with
`resource_exceeded = false` and exit code 1. -/
theorem c3_memory_fault_paths (req : WRequest)
    (hmode : req.policy.mode = "allow" ∨ req.policy.mode = "restrict") :
    (∀ (msg : String) (mf : Bool),
       workerMain (.preTryRaise "MemoryError" msg) mf =
         { writes := [], exit := Option.none, trace := [] }) ∧
    (workerMain (.valid req) true).writes =
      [{ ok := false, result := .null, stdout := [], stderr := [],
         timed_out := false, resource_exceeded := true,
         error := some "Memory limit exceeded" }] ∧
    (workerMain (.valid req) true).exit = some 2 ∧
    (∀ msg out err tb,
       req.code = .bytecode (.raises "MemoryError" msg out err tb) →
       (workerMain (.valid req) false).exit = some 1 ∧
       (workerMain (.valid req) false).writes.map
         (fun r => r.resource_exceeded) = [false]) := by
  rcases req with ⟨code, input, policy⟩
  simp only at hmode
  refine ⟨fun _ _ => rfl, ?_, ?_, ?_⟩
  · rcases hmode with h | h <;> simp [workerMain, h]
  · rcases hmode with h | h <;> simp [workerMain, h]
  · intro msg out err tb hcode
    simp only at hcode
    subst hcode
    refine ⟨?_, ?_⟩ <;> rcases hmode with h | h <;> simp [workerMain, h]

/-- Witness for C3 at concrete requests: a pre-try `MemoryError` writes
nothing; an in-try setup fault on a trivial request reports exit 2; an
execution-phase `MemoryError` reports exit 1. -/
theorem c3_memory_fault_paths_witness :
    workerMain (.preTryRaise "MemoryError" "") false =
      { writes := [], exit := Option.none, trace := [] } ∧
    (workerMain (.valid reqSimple) true).exit = some 2 ∧
    (workerMain (.valid reqMemExec) false).exit = some 1 :=
  ⟨(c3_memory_fault_paths reqSimple (Or.inr rfl)).1 "" false,
   (c3_memory_fault_paths reqSimple (Or.inr rfl)).2.2.1,
   ((c3_memory_fault_paths reqMemExec (Or.inr rfl)).2.2.2 "" [] [] [] rfl).1⟩

/-! ## Claim C6 -/

/-- Counterexample for C6 as stated: `sys.exit(0.0)` carries a non-integer
payload yet the run succeeds (`0.0 == 0`, so the payload matches
`exit_code in (None, 0)`), and `sys.exit([1, 2])` fails with exit code 1 but
its payload text is not appended to the captured stderr — worker.py line 261
appends only string payloads. -/
theorem c6_cex_nonstring_payloads :
    (workerMain (.valid reqExitFloatZero) false).exit = some 0 ∧
    (workerMain (.valid reqExitFloatZero) false).writes.map (fun r => r.ok) =
      [true] ∧
    (workerMain (.valid reqExitOther) false).exit = some 1 ∧
    (workerMain (.valid reqExitOther) false).writes.map (fun r => r.stderr) =
      [[]] ∧
    pyStrPayload (.other "[1, 2]") ≠ "" :=
  ⟨rfl, rfl, rfl, rfl, by decide⟩

/-- C6 amended: a `SystemExit` payload of `0`, absent, or equal to `0` (such
as `0.0`) yields success with exit code 0; a nonzero integer payload yields
failure with that integer as the worker exit code; every other payload
yields failure with exit code 1 and `SystemExit: <payload>` as the error
text, with the payload text additionally appended to the captured stderr
(followed by a newline) only when the payload is a string. -/
theorem c6_system_exit_payloads :
    (∀ p, pyEqNoneOrZero p = true →
       normalizeSystemExit p = (true, 0, Option.none)) ∧
    (∀ n : Int, n ≠ 0 →
       normalizeSystemExit (.int n) =
         (false, n, some ("SystemExit: " ++ toString n))) ∧
    (∀ p, pyEqNoneOrZero p = false → (∀ n, p ≠ ExitPayload.int n) →
       normalizeSystemExit p =
         (false, 1, some ("SystemExit: " ++ pyStrPayload p))) ∧
    (∀ req out err s post,
       req.code = .bytecode (.sysExit out err (.str s) post) →
       (req.policy.mode = "allow" ∨ req.policy.mode = "restrict") →
       (workerMain (.valid req) false).writes.map (fun r => r.stderr) =
         [pySlice (err ++ (s ++ "\n").data) (req.policy.max_output_kb * 1024)] ∧
       (workerMain (.valid req) false).exit = some 1) := by
  refine ⟨?_, ?_, ?_, ?_⟩
  · intro p hp
    simp [normalizeSystemExit, hp]
  · intro n hn
    have hb : pyEqNoneOrZero (.int n) = false := by
      simp [pyEqNoneOrZero, hn]
    simp [normalizeSystemExit, hb, pyStrPayload]
  · intro p hp hnotint
    cases p with
    | none => simp [pyEqNoneOrZero] at hp
    | int n => exact absurd rfl (hnotint n)
    | float q => simp [normalizeSystemExit, hp]
    | str s => simp [normalizeSystemExit, hp]
    | other t => simp [normalizeSystemExit, hp]
  · intro req out err s post hcode hmode
    rcases req with ⟨code, input, policy⟩
    simp only at hcode hmode
    subst hcode
    constructor <;> rcases hmode with h | h <;>
      simp [workerMain, h, normalizeSystemExit, pyEqNoneOrZero]

/-- Witness for C6 at concrete payloads: absent payload, `sys.exit(3)`,
`sys.exit([1, 2])`, and `sys.exit("stop now")`. -/
theorem c6_system_exit_payloads_witness :
    normalizeSystemExit .none = (true, 0, Option.none) ∧
    normalizeSystemExit (.int 3) = (false, 3, some ("SystemExit: " ++ toString (3 : Int))) ∧
    normalizeSystemExit (.other "[1, 2]") =
      (false, 1, some ("SystemExit: " ++ pyStrPayload (.other "[1, 2]"))) ∧
    (workerMain (.valid reqExitStr) false).writes.map (fun r => r.stderr) =
      [pySlice (([] : PyText) ++ ("stop now" ++ "\n").data)
        (reqExitStr.policy.max_output_kb * 1024)] ∧
    (workerMain (.valid reqExitStr) false).exit = some 1 := by
  refine ⟨?_, ?_, ?_, ?_, ?_⟩
  · exact c6_system_exit_payloads.1 .none rfl
  · exact c6_system_exit_payloads.2.1 3 (by decide)
  · exact c6_system_exit_payloads.2.2.1 (.other "[1, 2]") rfl
      (fun n h => ExitPayload.noConfusion h)
  · exact (c6_system_exit_payloads.2.2.2 reqExitStr [] [] "stop now" id rfl
      (Or.inr rfl)).1
  · exact (c6_system_exit_payloads.2.2.2 reqExitStr [] [] "stop now" id rfl
      (Or.inr rfl)).2

/-! ## Claim C8 -/

theorem utf8Len_foldl (s : PyText) : ∀ a : Nat,
    s.foldl (fun x d => x + d.utf8Size) a = a + utf8Len s := by
  induction s with
  | nil => intro a; simp [utf8Len]
  | cons d t ih =>
    intro a
    show t.foldl (fun x d => x + d.utf8Size) (a + d.utf8Size) = a + utf8Len (d :: t)
    have h2 : utf8Len (d :: t) = 0 + d.utf8Size + utf8Len t := by
      show t.foldl (fun x d => x + d.utf8Size) (0 + d.utf8Size) = 0 + d.utf8Size + utf8Len t
      rw [ih]
    rw [ih, h2]
    omega

theorem utf8Len_cons (d : Char) (t : PyText) :
    utf8Len (d :: t) = d.utf8Size + utf8Len t := by
  show t.foldl (fun x d => x + d.utf8Size) (0 + d.utf8Size) = d.utf8Size + utf8Len t
  rw [utf8Len_foldl]
  omega

theorem utf8Len_replicate (n : Nat) (c : Char) :
    utf8Len (List.replicate n c) = n * c.utf8Size := by
  induction n with
  | zero => simp [utf8Len]
  | succ m ih =>
    rw [List.replicate_succ, utf8Len_cons, ih]
    ring

theorem pySlice_length (s : PyText) (n : Int) (hn : 0 ≤ n) :
    (pySlice s n).length = min n.toNat s.length := by
  simp [pySlice, hn]

/-- The normal-completion path of `worker.main` in closed form. -/
theorem workerMain_completes_run (req : WRequest) (out err : PyText)
    (post : Namespc → Namespc)
    (hcode : req.code = .bytecode (.completes out err post))
    (hmode : req.policy.mode = "allow" ∨ req.policy.mode = "restrict") :
    workerMain (.valid req) false =
      { writes := [{
          ok := true,
          result := (nsGet (post (buildExecGlobals req.policy req.input_data))
            "result").getD .null,
          stdout := pySlice (out ++ (pyStrJ ((nsGet
            (post (buildExecGlobals req.policy req.input_data))
            "printed").getD (.str ""))).data) (req.policy.max_output_kb * 1024),
          stderr := pySlice err (req.policy.max_output_kb * 1024),
          timed_out := false, resource_exceeded := false,
          error := Option.none }],
        exit := some 0,
        trace := [.limitsApplied, .compiled, .executed] } := by
  rcases req with ⟨code, input, policy⟩
  simp only at hcode hmode
  subst hcode
  rcases hmode with h | h <;> simp [workerMain, h]

/-- Counterexample for C8 as stated: with `max_output_kb = 1`, code emitting
1025 copies of a two-byte code point produces 2050 bytes (more than 1 KB) of
stdout, and the captured stdout is truncated by the Python string slice
`[:1024]` to 1024 code points — 2048 bytes, not exactly 1024 bytes. -/
theorem c8_cex_truncation_is_code_points :
    utf8Len outC8 > 1024 ∧
    (workerMain (.valid reqC8cex) false).writes.map (fun r => r.stdout) =
      [List.replicate 1024 'é'] ∧
    utf8Len (List.replicate 1024 'é') ≠ 1024 ∧
    (List.replicate 1024 'é').length = 1024 := by
  have hsize : ('é').utf8Size = 2 := rfl
  refine ⟨?_, ?_, ?_, ?_⟩
  · rw [show outC8 = List.replicate 1025 'é' from rfl, utf8Len_replicate, hsize]
    omega
  · rw [workerMain_completes_run reqC8cex outC8 [] id rfl (Or.inr rfl)]
    simp only [List.map_cons, List.map_nil]
    rw [show (pyStrJ ((nsGet (id (buildExecGlobals reqC8cex.policy
      reqC8cex.input_data)) "printed").getD (.str ""))).data = ([] : PyText) from rfl]
    rw [List.append_nil,
      show reqC8cex.policy.max_output_kb * 1024 = (1024 : Int) from rfl]
    rw [show outC8 = List.replicate 1025 'é' from rfl]
    have hs : pySlice (List.replicate 1025 'é') 1024 =
        (List.replicate 1025 'é').take (1024 : Int).toNat := by
      unfold pySlice
      rw [if_pos (by norm_num)]
    rw [hs, show ((1024 : Int).toNat) = 1024 from rfl, List.take_replicate]
    norm_num
  · rw [utf8Len_replicate, hsize]
    omega
  · simp

/-- C8 amended: on normal completion the captured stdout is truncated to
exactly `max_output_kb * 1024` code points whenever the code produced more
than that many code points of stdout, and the captured stderr is truncated
to at most `max_output_kb * 1024` code points; the budget counts Python
string items (code points), which coincide with bytes only for single-byte
text. -/
theorem c8_truncation_amended (req : WRequest) (out err : PyText)
    (post : Namespc → Namespc)
    (hcode : req.code = .bytecode (.completes out err post))
    (hmode : req.policy.mode = "allow" ∨ req.policy.mode = "restrict")
    (hkb : 0 ≤ req.policy.max_output_kb) :
    ((out.length : Int) > req.policy.max_output_kb * 1024 →
       (workerMain (.valid req) false).writes.map
         (fun r => (r.stdout.length : Int)) =
         [req.policy.max_output_kb * 1024]) ∧
    (workerMain (.valid req) false).writes.all
      (fun r => decide ((r.stderr.length : Int) ≤
        req.policy.max_output_kb * 1024)) = true := by
  have hb : (0 : Int) ≤ req.policy.max_output_kb * 1024 :=
    mul_nonneg hkb (by norm_num)
  rw [workerMain_completes_run req out err post hcode hmode]
  constructor
  · intro hgt
    simp only [List.map_cons, List.map_nil, List.cons.injEq, and_true]
    rw [pySlice_length _ _ hb, List.length_append]
    have h1 : (req.policy.max_output_kb * 1024).toNat <
        out.length + (pyStrJ ((nsGet (post (buildExecGlobals req.policy
          req.input_data)) "printed").getD (.str ""))).data.length := by
      omega
    omega
  · simp only [List.all_cons, List.all_nil, Bool.and_true,
      decide_eq_true_eq]
    rw [pySlice_length _ _ hb]
    omega

/-- Witness for C8 at the concrete over-budget request. -/
theorem c8_truncation_amended_witness :
    (workerMain (.valid reqC8cex) false).writes.map
      (fun r => (r.stdout.length : Int)) =
      [reqC8cex.policy.max_output_kb * 1024] ∧
    (workerMain (.valid reqC8cex) false).writes.all
      (fun r => decide ((r.stderr.length : Int) ≤
        reqC8cex.policy.max_output_kb * 1024)) = true :=
  ⟨(c8_truncation_amended reqC8cex outC8 [] id rfl (Or.inr rfl)
      (by norm_num [reqC8cex, polK1])).1
      (by norm_num [outC8, reqC8cex, polK1]),
   (c8_truncation_amended reqC8cex outC8 [] id rfl (Or.inr rfl)
      (by norm_num [reqC8cex, polK1])).2⟩

/-! ## Claim C9 -/

/-- Counterexample for C9 as stated: `DockerEngine._pool_settings` passes a
truthy constructor override through without validation, so an engine built
with `acquire_timeout_seconds=1` serving a run with `timeout_seconds=100`
yields `acquire_timeout = 1`, which does not exceed the run timeout; likewise
`pool_size=-1` yields a non-positive `pool_size`. -/
theorem c9_cex_unvalidated_overrides :
    (enginePoolSettings Option.none Option.none Option.none (some 1)
      (some 4) 100).acquire_timeout = 1 ∧
    ¬ (100 < (enginePoolSettings Option.none Option.none Option.none (some 1)
      (some 4) 100).acquire_timeout) ∧
    (enginePoolSettings (some (-1)) Option.none Option.none Option.none
      (some 4) 5).pool_size = -1 ∧
    ¬ (0 < (enginePoolSettings (some (-1)) Option.none Option.none Option.none
      (some 4) 5).pool_size) :=
  ⟨rfl, by decide, rfl, by decide⟩

/-- C9 amended: the settings built by `default_pool_settings` (used whenever
no explicit override is given) have all four fields positive and an
`acquire_timeout` strictly exceeding the run timeout they serve, and
`_pool_settings` with no overrides returns exactly those defaults; a truthy
constructor override, however, is substituted without validation and can
break both properties. -/
theorem c9_default_pool_settings_positive (cpuCount : Option Nat)
    (timeout_seconds : Int) :
    0 < (default_pool_settings cpuCount timeout_seconds).pool_size ∧
    0 < (default_pool_settings cpuCount timeout_seconds).max_runs ∧
    0 < (default_pool_settings cpuCount timeout_seconds).ttl_seconds ∧
    0 < (default_pool_settings cpuCount timeout_seconds).acquire_timeout ∧
    timeout_seconds <
      (default_pool_settings cpuCount timeout_seconds).acquire_timeout ∧
    enginePoolSettings Option.none Option.none Option.none Option.none
      cpuCount timeout_seconds = default_pool_settings cpuCount timeout_seconds := by
  have hge : 1 ≤ pyOrNat cpuCount 1 := by
    cases cpuCount with
    | none => simp [pyOrNat]
    | some n =>
      by_cases h : n = 0
      · simp [pyOrNat, h]
      · simp only [pyOrNat, if_neg h]
        omega
  have hgeZ : (1 : Int) ≤ (pyOrNat cpuCount 1 : Int) := by exact_mod_cast hge
  have hmax1 : (1 : Int) ≤ max 1 timeout_seconds := le_max_left 1 timeout_seconds
  have hmaxT : timeout_seconds ≤ max 1 timeout_seconds :=
    le_max_right 1 timeout_seconds
  refine ⟨?_, ?_, ?_, ?_, ?_, rfl⟩
  · simp only [default_pool_settings, lt_min_iff]
    exact ⟨by omega, by omega⟩
  · norm_num [default_pool_settings]
  · norm_num [default_pool_settings]
  · simp only [default_pool_settings]
    omega
  · simp only [default_pool_settings]
    omega

/-! ## Claim C2 -/

theorem scanIdle_leased_mem (probe : String → Bool) (es : List ContainerEntry)
    (i : Nat) (es2 : List ContainerEntry) (rem : List String)
    (l : ContainerLease) (h : scanIdle probe es i = (es2, rem, some l)) :
    ∃ e ∈ es, e.in_use = false ∧ e.lease = l := by
  rw [scanIdle] at h
  split at h
  · rename_i hlt
    by_cases hu : (es.get ⟨i, hlt⟩).in_use
    · rw [if_pos hu] at h
      exact scanIdle_leased_mem probe es (i + 1) es2 rem l h
    · rw [if_neg hu] at h
      by_cases hp : probe (es.get ⟨i, hlt⟩).lease.container_name
      · rw [if_pos hp] at h
        simp only [Prod.mk.injEq] at h
        obtain ⟨h1, h2, h3⟩ := h
        exact ⟨es.get ⟨i, hlt⟩, List.get_mem es i hlt, by simpa using hu,
          Option.some.inj h3⟩
      · rw [if_neg hp] at h
        simp only [Prod.mk.injEq] at h
        obtain ⟨h1, h2, h3⟩ := h
        have hrec : scanIdle probe (es.eraseIdx i) (i + 1) =
            ((scanIdle probe (es.eraseIdx i) (i + 1)).1,
             (scanIdle probe (es.eraseIdx i) (i + 1)).2.1, some l) := by
          rw [← h3]
        obtain ⟨e, hmem, hin, hl⟩ :=
          scanIdle_leased_mem probe (es.eraseIdx i) (i + 1) _ _ l hrec
        exact ⟨e, (List.eraseIdx_sublist es i).subset hmem, hin, hl⟩
  · simp at h
termination_by es.length - i
decreasing_by
  all_goals
    first
      | omega
      | (have hlen : (es.eraseIdx i).length = es.length - 1 :=
           List.length_eraseIdx_of_lt (by assumption)
         omega)

theorem map_get_not_mem_eraseIdx {α β : Type} (f : α → β) :
    ∀ (l : List α) (i : Nat) (h : i < l.length), (l.map f).Nodup →
      f (l.get ⟨i, h⟩) ∉ (l.eraseIdx i).map f := by
  intro l
  induction l with
  | nil => intro i h; simp at h
  | cons a t ih =>
    intro i h hnd
    simp only [List.map_cons, List.nodup_cons] at hnd
    cases i with
    | zero => simpa using hnd.1
    | succ j =>
      have hgt : (a :: t).get ⟨j + 1, h⟩ = t.get ⟨j, by simpa using h⟩ := rfl
      simp only [List.eraseIdx_cons_succ, List.map_cons, List.mem_cons, hgt]
      rintro (heq | hmem)
      · have hm : f (t.get ⟨j, by simpa using h⟩) ∈ t.map f :=
          List.mem_map_of_mem f (List.get_mem t j (by simpa using h))
        rw [heq] at hm
        exact hnd.1 hm
      · exact ih j (by simpa using h) hnd.2 hmem

theorem scanIdle_removed_mem (probe : String → Bool) (es : List ContainerEntry)
    (i : Nat) (es2 : List ContainerEntry) (rem : List String)
    (res : Option ContainerLease) (h : scanIdle probe es i = (es2, rem, res))
    (n : String) (hn : n ∈ rem) :
    ∃ e ∈ es, e.in_use = false ∧ e.lease.container_name = n ∧ probe n = false := by
  rw [scanIdle] at h
  split at h
  · rename_i hlt
    by_cases hu : (es.get ⟨i, hlt⟩).in_use
    · rw [if_pos hu] at h
      exact scanIdle_removed_mem probe es (i + 1) es2 rem res h n hn
    · rw [if_neg hu] at h
      by_cases hp : probe (es.get ⟨i, hlt⟩).lease.container_name
      · rw [if_pos hp] at h
        simp only [Prod.mk.injEq] at h
        obtain ⟨h1, h2, h3⟩ := h
        rw [← h2] at hn
        simp at hn
      · rw [if_neg hp] at h
        simp only [Prod.mk.injEq] at h
        obtain ⟨h1, h2, h3⟩ := h
        rw [← h2] at hn
        rcases List.mem_cons.mp hn with heq | hmem
        · subst heq
          exact ⟨es.get ⟨i, hlt⟩, List.get_mem es i hlt, by simpa using hu, rfl,
            by simpa using hp⟩
        · obtain ⟨e, hmem2, he1, he2, he3⟩ :=
            scanIdle_removed_mem probe (es.eraseIdx i) (i + 1) _ _ _ rfl n hmem
          exact ⟨e, (List.eraseIdx_sublist es i).subset hmem2, he1, he2, he3⟩
  · simp only [Prod.mk.injEq] at h
    rw [← h.2.1] at hn
    simp at hn
termination_by es.length - i
decreasing_by
  all_goals
    first
      | omega
      | (have hlen : (es.eraseIdx i).length = es.length - 1 :=
           List.length_eraseIdx_of_lt (by assumption)
         omega)

theorem scanIdle_names_subset (probe : String → Bool) (es : List ContainerEntry)
    (i : Nat) (es2 : List ContainerEntry) (rem : List String)
    (res : Option ContainerLease) (h : scanIdle probe es i = (es2, rem, res)) :
    ∀ x ∈ entryNames es2, x ∈ entryNames es := by
  rw [scanIdle] at h
  split at h
  · rename_i hlt
    by_cases hu : (es.get ⟨i, hlt⟩).in_use
    · rw [if_pos hu] at h
      exact scanIdle_names_subset probe es (i + 1) es2 rem res h
    · rw [if_neg hu] at h
      by_cases hp : probe (es.get ⟨i, hlt⟩).lease.container_name
      · rw [if_pos hp] at h
        simp only [Prod.mk.injEq] at h
        obtain ⟨h1, h2, h3⟩ := h
        intro x hx
        rw [← h1] at hx
        simp only [entryNames, List.mem_map] at hx ⊢
        obtain ⟨e, hmem, hname⟩ := hx
        rcases List.mem_or_eq_of_mem_set hmem with hmem2 | heq
        · exact ⟨e, hmem2, hname⟩
        · subst heq
          exact ⟨es.get ⟨i, hlt⟩, List.get_mem es i hlt, hname⟩
      · rw [if_neg hp] at h
        simp only [Prod.mk.injEq] at h
        obtain ⟨h1, h2, h3⟩ := h
        intro x hx
        rw [← h1] at hx
        have hx2 := scanIdle_names_subset probe (es.eraseIdx i) (i + 1) _ _ _ rfl x hx
        simp only [entryNames, List.mem_map] at hx2 ⊢
        obtain ⟨e, hmem, hname⟩ := hx2
        exact ⟨e, (List.eraseIdx_sublist es i).subset hmem, hname⟩
  · simp only [Prod.mk.injEq] at h
    intro x hx
    rw [← h.1] at hx
    exact hx
termination_by es.length - i
decreasing_by
  all_goals
    first
      | omega
      | (have hlen : (es.eraseIdx i).length = es.length - 1 :=
           List.length_eraseIdx_of_lt (by assumption)
         omega)

theorem scanIdle_removed_not_mem (probe : String → Bool)
    (es : List ContainerEntry) (i : Nat) (es2 : List ContainerEntry)
    (rem : List String) (res : Option ContainerLease)
    (h : scanIdle probe es i = (es2, rem, res))
    (hnd : (entryNames es).Nodup) (n : String) (hn : n ∈ rem) :
    n ∉ entryNames es2 := by
  rw [scanIdle] at h
  split at h
  · rename_i hlt
    by_cases hu : (es.get ⟨i, hlt⟩).in_use
    · rw [if_pos hu] at h
      exact scanIdle_removed_not_mem probe es (i + 1) es2 rem res h hnd n hn
    · rw [if_neg hu] at h
      by_cases hp : probe (es.get ⟨i, hlt⟩).lease.container_name
      · rw [if_pos hp] at h
        simp only [Prod.mk.injEq] at h
        rw [← h.2.1] at hn
        simp at hn
      · rw [if_neg hp] at h
        simp only [Prod.mk.injEq] at h
        obtain ⟨h1, h2, h3⟩ := h
        have hndE : (entryNames (es.eraseIdx i)).Nodup :=
          hnd.sublist ((List.eraseIdx_sublist es i).map
            (fun e => e.lease.container_name))
        rw [← h2] at hn
        rcases List.mem_cons.mp hn with heq | hmem
        · subst heq
          intro hmem2
          rw [← h1] at hmem2
          have hx := scanIdle_names_subset probe (es.eraseIdx i) (i + 1) _ _ _
            rfl _ hmem2
          exact map_get_not_mem_eraseIdx (fun e => e.lease.container_name)
            es i hlt hnd hx
        · intro hmem2
          rw [← h1] at hmem2
          exact scanIdle_removed_not_mem probe (es.eraseIdx i) (i + 1) _ _ _
            rfl hndE n hmem hmem2
  · simp only [Prod.mk.injEq] at h
    rw [← h.2.1] at hn
    simp at hn
termination_by es.length - i
decreasing_by
  all_goals
    first
      | omega
      | (have hlen : (es.eraseIdx i).length = es.length - 1 :=
           List.length_eraseIdx_of_lt (by assumption)
         omega)

theorem scanIdle_leased_name_in_result (probe : String → Bool)
    (es : List ContainerEntry) (i : Nat) (es2 : List ContainerEntry)
    (rem : List String) (l : ContainerLease)
    (h : scanIdle probe es i = (es2, rem, some l)) :
    l.container_name ∈ entryNames es2 := by
  rw [scanIdle] at h
  split at h
  · rename_i hlt
    by_cases hu : (es.get ⟨i, hlt⟩).in_use
    · rw [if_pos hu] at h
      exact scanIdle_leased_name_in_result probe es (i + 1) es2 rem l h
    · rw [if_neg hu] at h
      by_cases hp : probe (es.get ⟨i, hlt⟩).lease.container_name
      · rw [if_pos hp] at h
        simp only [Prod.mk.injEq] at h
        obtain ⟨h1, h2, h3⟩ := h
        have hl : l = (es.get ⟨i, hlt⟩).lease := (Option.some.inj h3).symm
        subst hl
        rw [← h1]
        have hmem : ({ lease := (es.get ⟨i, hlt⟩).lease, in_use := true } :
            ContainerEntry) ∈
            es.set i { lease := (es.get ⟨i, hlt⟩).lease, in_use := true } :=
          List.mem_set es i hlt _
        exact List.mem_map_of_mem (fun e => e.lease.container_name) hmem
      · rw [if_neg hp] at h
        simp only [Prod.mk.injEq] at h
        obtain ⟨h1, h2, h3⟩ := h
        have hrec : scanIdle probe (es.eraseIdx i) (i + 1) =
            ((scanIdle probe (es.eraseIdx i) (i + 1)).1,
             (scanIdle probe (es.eraseIdx i) (i + 1)).2.1, some l) := by
          rw [← h3]
        have := scanIdle_leased_name_in_result probe (es.eraseIdx i) (i + 1)
          _ _ l hrec
        rw [← h1]
        exact this
  · simp at h
termination_by es.length - i
decreasing_by
  all_goals
    first
      | omega
      | (have hlen : (es.eraseIdx i).length = es.length - 1 :=
           List.length_eraseIdx_of_lt (by assumption)
         omega)

theorem rotateLocked_nodup (entries : List ContainerEntry)
    (settings : DockerPoolSettings) (now : Int)
    (hnd : (entryNames entries).Nodup) :
    (entryNames (rotateLocked entries settings now)).Nodup :=
  hnd.sublist ((List.filter_sublist entries).map (fun e => e.lease.container_name))

theorem acquireAttempt_leased_from_idle (probe : String → Bool)
    (entries : List ContainerEntry) (settings : DockerPoolSettings) (now : Int)
    (newName : String) (es2 : List ContainerEntry) (rem : List String)
    (l : ContainerLease)
    (h : acquireAttempt probe entries settings now newName =
      (es2, rem, .leased l)) :
    ∃ e ∈ entries, e.in_use = false ∧ e.lease = l := by
  unfold acquireAttempt at h
  rcases hscan : scanIdle probe (rotateLocked entries settings now) 0 with
    ⟨es3, rem3, res3⟩
  rw [hscan] at h
  cases res3 with
  | some l2 =>
    simp only [Prod.mk.injEq, AcquireResult.leased.injEq] at h
    obtain ⟨h1, h2, h3⟩ := h
    subst h3
    obtain ⟨e, hmem, hin, hl⟩ :=
      scanIdle_leased_mem probe (rotateLocked entries settings now) 0
        es3 rem3 l2 hscan
    exact ⟨e, List.mem_of_mem_filter hmem, hin, hl⟩
  | none =>
    dsimp only at h
    split at h <;> simp at h

theorem acquireAttempt_created_fresh (probe : String → Bool)
    (entries : List ContainerEntry) (settings : DockerPoolSettings) (now : Int)
    (newName : String) (es2 : List ContainerEntry) (rem : List String)
    (l : ContainerLease)
    (h : acquireAttempt probe entries settings now newName =
      (es2, rem, .created l)) :
    l.container_name = newName ∧ l.run_count = 0 ∧ l.created_at = now := by
  unfold acquireAttempt at h
  rcases hscan : scanIdle probe (rotateLocked entries settings now) 0 with
    ⟨es3, rem3, res3⟩
  rw [hscan] at h
  cases res3 with
  | some l2 => simp at h
  | none =>
    dsimp only at h
    split at h
    · simp only [Prod.mk.injEq, AcquireResult.created.injEq] at h
      obtain ⟨h1, h2, h3⟩ := h
      rw [← h3]
      exact ⟨rfl, rfl, rfl⟩
    · simp at h

theorem acquireAttempt_removed (probe : String → Bool)
    (entries : List ContainerEntry) (settings : DockerPoolSettings) (now : Int)
    (newName : String) (es2 : List ContainerEntry) (rem : List String)
    (r : AcquireResult)
    (h : acquireAttempt probe entries settings now newName = (es2, rem, r))
    (hnd : (entryNames entries).Nodup)
    (hfresh : newName ∉ entryNames entries) :
    ∀ n ∈ rem, n ∉ entryNames es2 ∧ resultName r ≠ some n := by
  have hndR := rotateLocked_nodup entries settings now hnd
  unfold acquireAttempt at h
  rcases hscan : scanIdle probe (rotateLocked entries settings now) 0 with
    ⟨es3, rem3, res3⟩
  rw [hscan] at h
  have hinpool : ∀ n ∈ rem3, n ∈ entryNames entries := by
    intro n hn3
    obtain ⟨e, hmem, _, hname, _⟩ :=
      scanIdle_removed_mem probe (rotateLocked entries settings now) 0
        es3 rem3 res3 hscan n hn3
    rw [← hname]
    exact List.mem_map_of_mem _ (List.mem_of_mem_filter hmem)
  cases res3 with
  | some l2 =>
    simp only [Prod.mk.injEq] at h
    obtain ⟨h1, h2, h3⟩ := h
    intro n hn
    have hn3 : n ∈ rem3 := by rw [h2]; exact hn
    have hgone := scanIdle_removed_not_mem probe
      (rotateLocked entries settings now) 0 es3 rem3 (some l2) hscan hndR n hn3
    constructor
    · rw [← h1]; exact hgone
    · rw [← h3]
      intro heq
      have hin := scanIdle_leased_name_in_result probe
        (rotateLocked entries settings now) 0 es3 rem3 l2 hscan
      rw [Option.some.inj heq] at hin
      exact hgone hin
  | none =>
    dsimp only at h
    split at h <;> rename_i hsize <;> simp only [Prod.mk.injEq] at h <;>
      obtain ⟨h1, h2, h3⟩ := h <;> intro n hn
    · have hn3 : n ∈ rem3 := by rw [h2]; exact hn
      have hgone := scanIdle_removed_not_mem probe
        (rotateLocked entries settings now) 0 es3 rem3 Option.none hscan hndR n hn3
      have hneq : newName ≠ n := fun heq => hfresh (heq ▸ hinpool n hn3)
      constructor
      · rw [← h1]
        intro hmem
        simp only [entryNames, List.map_append, List.mem_append] at hmem
        rcases hmem with hmem | hmem
        · exact hgone hmem
        · simp only [List.map_cons, List.map_nil, List.mem_singleton] at hmem
          exact hneq hmem.symm
      · rw [← h3]
        intro heq
        exact hneq (Option.some.inj heq)
    · have hn3 : n ∈ rem3 := by rw [h2]; exact hn
      have hgone := scanIdle_removed_not_mem probe
        (rotateLocked entries settings now) 0 es3 rem3 Option.none hscan hndR n hn3
      constructor
      · rw [← h1]; exact hgone
      · rw [← h3]; simp [resultName]

theorem acquireAttempt_result_name (probe : String → Bool)
    (entries : List ContainerEntry) (settings : DockerPoolSettings) (now : Int)
    (newName : String) (es2 : List ContainerEntry) (rem : List String)
    (r : AcquireResult)
    (h : acquireAttempt probe entries settings now newName = (es2, rem, r))
    (nm : String) (hr : resultName r = some nm) :
    nm ∈ entryNames entries ∨ nm = newName := by
  unfold acquireAttempt at h
  rcases hscan : scanIdle probe (rotateLocked entries settings now) 0 with
    ⟨es3, rem3, res3⟩
  rw [hscan] at h
  cases res3 with
  | some l2 =>
    simp only [Prod.mk.injEq] at h
    obtain ⟨h1, h2, h3⟩ := h
    rw [← h3] at hr
    obtain ⟨e, hmem, _, hl⟩ :=
      scanIdle_leased_mem probe (rotateLocked entries settings now) 0
        es3 rem3 l2 hscan
    left
    rw [← Option.some.inj hr, ← hl]
    exact List.mem_map_of_mem _ (List.mem_of_mem_filter hmem)
  | none =>
    dsimp only at h
    split at h <;> simp only [Prod.mk.injEq] at h <;> obtain ⟨h1, h2, h3⟩ := h
    · rw [← h3] at hr
      right
      exact (Option.some.inj hr).symm
    · rw [← h3] at hr
      simp [resultName] at hr

theorem acquireAttempt_names_mono (probe : String → Bool)
    (entries : List ContainerEntry) (settings : DockerPoolSettings) (now : Int)
    (newName : String) (es2 : List ContainerEntry) (rem : List String)
    (r : AcquireResult)
    (h : acquireAttempt probe entries settings now newName = (es2, rem, r)) :
    ∀ x ∈ entryNames es2, x ∈ entryNames entries ∨ x = newName := by
  unfold acquireAttempt at h
  rcases hscan : scanIdle probe (rotateLocked entries settings now) 0 with
    ⟨es3, rem3, res3⟩
  rw [hscan] at h
  have hsub3 : ∀ x ∈ entryNames es3, x ∈ entryNames entries := by
    intro x hx
    have hx2 := scanIdle_names_subset probe (rotateLocked entries settings now)
      0 es3 rem3 res3 hscan x hx
    simp only [entryNames, List.mem_map] at hx2 ⊢
    obtain ⟨e, hmem, hname⟩ := hx2
    exact ⟨e, List.mem_of_mem_filter hmem, hname⟩
  cases res3 with
  | some l2 =>
    simp only [Prod.mk.injEq] at h
    obtain ⟨h1, h2, h3⟩ := h
    intro x hx
    rw [← h1] at hx
    exact Or.inl (hsub3 x hx)
  | none =>
    dsimp only at h
    split at h <;> simp only [Prod.mk.injEq] at h <;> obtain ⟨h1, h2, h3⟩ := h
    · intro x hx
      rw [← h1] at hx
      simp only [entryNames, List.map_append, List.mem_append] at hx
      rcases hx with hx | hx
      · exact Or.inl (hsub3 x hx)
      · simp only [List.map_cons, List.map_nil, List.mem_singleton] at hx
        exact Or.inr hx
    · intro x hx
      rw [← h1] at hx
      exact Or.inl (hsub3 x hx)

theorem releaseEntry_names_subset (entries : List ContainerEntry)
    (name : String) (mark_bad : Bool) (now : Int) :
    ∀ x ∈ entryNames (releaseEntry entries name mark_bad now),
      x ∈ entryNames entries := by
  induction entries with
  | nil =>
    intro x hx
    rw [releaseEntry] at hx
    exact hx
  | cons e rest ih =>
    intro x hx
    rw [releaseEntry] at hx
    by_cases hname : e.lease.container_name = name
    · rw [if_pos hname] at hx
      by_cases hb : mark_bad
      · rw [if_pos hb] at hx
        simp only [entryNames, List.map_cons, List.mem_cons]
        exact Or.inr hx
      · rw [if_neg hb] at hx
        simp only [entryNames, List.map_cons, List.mem_cons] at hx ⊢
        exact hx
    · rw [if_neg hname] at hx
      simp only [entryNames, List.map_cons, List.mem_cons] at hx ⊢
      rcases hx with hx | hx
      · exact Or.inl hx
      · exact Or.inr (ih x hx)

theorem poolStep_not_mem (entries : List ContainerEntry) (ev : PoolEvent)
    (n : String) (hn : n ∉ entryNames entries)
    (hev : eventNewName ev ≠ some n) :
    n ∉ entryNames (poolStep entries ev).1 ∧
      (∀ r, (poolStep entries ev).2 = some r → resultName r ≠ some n) := by
  cases ev with
  | acquire probe settings now newName =>
    have hneq : newName ≠ n := by
      intro heq
      exact hev (by simp [eventNewName, heq])
    rcases hA : acquireAttempt probe entries settings now newName with
      ⟨es2, rem, r⟩
    constructor
    · intro hmem
      have hx : n ∈ entryNames es2 := by
        rw [show entryNames es2 = entryNames (poolStep entries
          (PoolEvent.acquire probe settings now newName)).1 by
            simp [poolStep, hA]]
        exact hmem
      rcases acquireAttempt_names_mono probe entries settings now newName
        es2 rem r hA n hx with hmem2 | heq
      · exact hn hmem2
      · exact hneq heq.symm
    · intro r2 hr2 heq
      have hr2e : r = r2 := by
        simpa [poolStep, hA] using hr2
      rw [← hr2e] at heq
      rcases acquireAttempt_result_name probe entries settings now newName
        es2 rem r hA n heq with hmem2 | heq2
      · exact hn hmem2
      · exact hneq heq2.symm
  | release name mark_bad now =>
    constructor
    · intro hmem
      have hx : n ∈ entryNames (releaseEntry entries name mark_bad now) := by
        simpa [poolStep] using hmem
      exact hn (releaseEntry_names_subset entries name mark_bad now n hx)
    · intro r2 hr2
      simp [poolStep] at hr2

theorem poolRun_never_returns_aux (evs : List PoolEvent) :
    ∀ (entries : List ContainerEntry) (n : String),
      n ∉ entryNames entries →
      (∀ ev ∈ evs, eventNewName ev ≠ some n) →
      (∀ r ∈ (poolRun entries evs).2, resultName r ≠ some n) ∧
        n ∉ entryNames (poolRun entries evs).1 := by
  induction evs with
  | nil =>
    intro entries n hn _
    exact ⟨by intro r hr; simp [poolRun] at hr, by simpa [poolRun] using hn⟩
  | cons ev evs ih =>
    intro entries n hn hevs
    have hstep := poolStep_not_mem entries ev n hn
      (hevs ev (List.mem_cons_self ev evs))
    have hrest := ih (poolStep entries ev).1 n hstep.1
      (fun e he => hevs e (List.mem_cons_of_mem ev he))
    constructor
    · intro r hr
      rw [poolRun] at hr
      simp only [List.mem_append] at hr
      rcases hr with hr | hr
      · rcases hopt : (poolStep entries ev).2 with _ | r2
        · rw [hopt] at hr; simp at hr
        · rw [hopt] at hr
          simp only [Option.toList_some, List.mem_singleton] at hr
          subst hr
          exact hstep.2 r hopt
      · exact hrest.1 r hr
    · rw [poolRun]
      exact hrest.2

/-- C2: in every pool state (hence in every state reachable by acquire and
release steps), a lease handed out by an acquire pass either comes from an
entry that was idle (`in_use = false`) at that moment — an in-use entry is
never leased to a second caller — or is a freshly created container; an idle
entry that fails the liveness probe during the pass is removed: its name is
gone from the pool, the lease returned by that pass does not refer to it
(given the uuid-unique container names), and no later acquire in any event
sequence returns it as long as newly created containers take fresh names. -/
theorem c2_pool_lease_invariants :
    (∀ (probe : String → Bool) (entries : List ContainerEntry)
       (settings : DockerPoolSettings) (now : Int) (newName : String)
       (es2 : List ContainerEntry) (rem : List String) (l : ContainerLease),
       acquireAttempt probe entries settings now newName =
         (es2, rem, .leased l) →
       ∃ e ∈ entries, e.in_use = false ∧ e.lease = l) ∧
    (∀ (probe : String → Bool) (entries : List ContainerEntry)
       (settings : DockerPoolSettings) (now : Int) (newName : String)
       (es2 : List ContainerEntry) (rem : List String) (l : ContainerLease),
       acquireAttempt probe entries settings now newName =
         (es2, rem, .created l) →
       l.container_name = newName ∧ l.run_count = 0 ∧ l.created_at = now) ∧
    (∀ (probe : String → Bool) (entries : List ContainerEntry)
       (settings : DockerPoolSettings) (now : Int) (newName : String)
       (es2 : List ContainerEntry) (rem : List String) (r : AcquireResult),
       acquireAttempt probe entries settings now newName = (es2, rem, r) →
       (entryNames entries).Nodup → newName ∉ entryNames entries →
       ∀ n ∈ rem, n ∉ entryNames es2 ∧ resultName r ≠ some n) ∧
    (∀ (entries : List ContainerEntry) (evs : List PoolEvent) (n : String),
       n ∉ entryNames entries →
       (∀ ev ∈ evs, eventNewName ev ≠ some n) →
       ∀ r ∈ (poolRun entries evs).2, resultName r ≠ some n) :=
  ⟨acquireAttempt_leased_from_idle,
   acquireAttempt_created_fresh,
   fun probe entries settings now newName es2 rem r h hnd hfresh =>
     acquireAttempt_removed probe entries settings now newName es2 rem r
       h hnd hfresh,
   fun entries evs n hn hevs =>
     (poolRun_never_returns_aux evs entries n hn hevs).1⟩

/-- Witness for C2 on a one-entry pool: a live idle entry is leased (it was
idle beforehand); a probe-failing idle entry is removed and the pass creates
a fresh container instead; and a name never present and never created is
never returned across an event sequence. -/
theorem c2_pool_lease_invariants_witness :
    (∃ e ∈ [entryIdle], e.in_use = false ∧ e.lease = entryIdle.lease) ∧
    (leaseC1.container_name = "c1" ∧ leaseC1.run_count = 0 ∧
      leaseC1.created_at = 1) ∧
    ("c0" ∉ entryNames [entryC1] ∧
      resultName (.created leaseC1) ≠ some "c0") ∧
    (∀ r ∈ (poolRun [] [.acquire (fun _ => false) settingsEx 1 "c1"]).2,
       resultName r ≠ some "zzz") := by
  refine ⟨?_, ?_, ?_, ?_⟩
  · exact c2_pool_lease_invariants.1 (fun _ => true) [entryIdle] settingsEx 1
      "c1" [{ lease := entryIdle.lease, in_use := true }] [] entryIdle.lease
      (by simp [acquireAttempt, rotateLocked, should_rotate, entryIdle,
        settingsEx, scanIdle])
  · exact c2_pool_lease_invariants.2.1 (fun _ => false) [entryIdle] settingsEx
      1 "c1" [entryC1] ["c0"] leaseC1
      (by simp [acquireAttempt, rotateLocked, should_rotate, entryIdle,
        settingsEx, scanIdle, leaseC1, entryC1])
  · exact c2_pool_lease_invariants.2.2.1 (fun _ => false) [entryIdle]
      settingsEx 1 "c1" [entryC1] ["c0"] (.created leaseC1)
      (by simp [acquireAttempt, rotateLocked, should_rotate, entryIdle,
        settingsEx, scanIdle, leaseC1, entryC1])
      (by simp [entryNames, entryIdle]) (by simp [entryNames, entryIdle])
      "c0" (by simp)
  · exact c2_pool_lease_invariants.2.2.2 [] [.acquire (fun _ => false)
      settingsEx 1 "c1"] "zzz" (by simp [entryNames])
      (by intro ev hev
          rw [List.mem_singleton] at hev
          subst hev
          simp [eventNewName])
